import Mathlib

/-!
Shallow embedding of the trade-decision extraction, risk-gating and
performance-ledger subsystem of the line-deepseek-bot repository.

Sources embedded here:
  - src/index.js        : loadTrades, addTradeFromSummary, computeStats,
                          evaluateRiskBeforeNewTrade, handleResultCommand,
                          extractDecisionSummary, applyRiskAndMaybeLog
  - src/unnamed/part_005: computeStats (dashboard variant), parseJsonFromGeminiText
  - src/logger.js and src/unnamed/part_003 (identical code): classifyRegime
                          (the pure post-processing of the classifier reply),
                          loadTrades (storage-corruption recovery)

JavaScript strings are modelled as Lean String values; the character-level
operations (trim, split, startsWith, includes, indexOf, slice, toLowerCase)
are re-implemented below on List Char so that every definition is executable
and kernel-reducible.  JavaScript numbers are modelled as Rat (the risk-unit
arithmetic of the source stays within small exact decimals, where IEEE-754
doubles and rationals agree).  JSON.parse is modelled by an executable strict
JSON parser returning Option Json; a JS exception corresponds to none.
-/

/-! ### JavaScript string-primitive models (on List Char) -/

/-- Whitespace for the JS String.prototype.trim model: ASCII whitespace.
(JS also trims some exotic Unicode spaces; no input in this development,
and none produced by the bot, contains them.) -/
def isJsWsChar (c : Char) : Bool :=
  c == ' ' || c == '\t' || c == '\n' || c == '\r' || c.toNat == 11 || c.toNat == 12

/-- Model of JS String.prototype.trim on the character list. -/
def jsTrimChars (l : List Char) : List Char :=
  ((l.dropWhile isJsWsChar).reverse.dropWhile isJsWsChar).reverse

/-- Model of JS String.prototype.trim. -/
def jsTrim (s : String) : String := String.mk (jsTrimChars s.data)

/-- Model of JS str.split for the one-char separator, keeping empty segments.
Always returns at least one segment, exactly as in JS. -/
def splitOnChar (sep : Char) : List Char → List (List Char)
  | [] => [[]]
  | c :: rest =>
    if c = sep then [] :: splitOnChar sep rest
    else
      match splitOnChar sep rest with
      | [] => [[c]]
      | g :: gs => (c :: g) :: gs

/-- Model of JS String.prototype.startsWith: pre is an initial segment of l. -/
def listStartsWith : List Char → List Char → Bool
  | _, [] => true
  | [], _ :: _ => false
  | a :: l2, b :: p2 => a == b && listStartsWith l2 p2

/-- Model of JS String.prototype.endsWith. -/
def listEndsWith (l suf : List Char) : Bool :=
  listStartsWith l.reverse suf.reverse

/-- Model of JS String.prototype.includes. -/
def containsSub (l sub : List Char) : Bool :=
  match l with
  | [] => sub.isEmpty
  | _ :: rest => listStartsWith l sub || containsSub rest sub

/-- Model of JS String.prototype.indexOf for a single character. -/
def firstIdxOf (target : Char) : List Char → Option Nat
  | [] => none
  | c :: rest =>
    if c = target then some 0 else (firstIdxOf target rest).map (· + 1)

/-- Model of JS String.prototype.lastIndexOf for a single character. -/
def lastIdxOf (target : Char) (l : List Char) : Option Nat :=
  match firstIdxOf target l.reverse with
  | some k => some (l.length - 1 - k)
  | none => none

/-- Model of JS String.prototype.toLowerCase (ASCII range; the needles used by
the source are CJK characters, unchanged by lowercasing, and ASCII words). -/
def jsLower (s : String) : String := String.mk (s.data.map Char.toLower)

/-! ### JSON values and a model of JSON.parse

Strict JSON grammar as accepted by JavaScript JSON.parse: the literals null,
true, false; double-quoted strings with the standard escape set; numbers with
optional minus, no leading zeros, optional fraction and exponent; arrays and
objects.  Numbers are represented exactly as rationals.  Duplicate object keys
keep the last binding, as JSON.parse does (see jGet below). -/

inductive Json where
  | null : Json
  | bool : Bool → Json
  | num : Rat → Json
  | str : String → Json
  | arr : List Json → Json
  | obj : List (String × Json) → Json

/-- JS truthiness of a JSON value (NaN cannot arise in Rat). -/
def jsTruthy : Json → Bool
  | Json.null => false
  | Json.bool b => b
  | Json.num q => q != 0
  | Json.str s => s != ""
  | Json.arr _ => true
  | Json.obj _ => true

/-- Last binding of a key in an object member list (JSON.parse keeps the last
occurrence of a duplicated key). -/
def jGetList : List (String × Json) → String → Option Json
  | [], _ => none
  | p :: rest, k =>
    match jGetList rest k with
    | some v => some v
    | none => if p.1 == k then some p.2 else none

/-- Property access j.k as JS performs it on a parsed JSON value: a field of an
object, undefined (none) otherwise. -/
def jGet (j : Json) (k : String) : Option Json :=
  match j with
  | Json.obj members => jGetList members k
  | _ => none

/-- JS truthiness of a possibly-undefined value (undefined is falsy). -/
def jsTruthyOpt : Option Json → Bool
  | some v => jsTruthy v
  | none => false

/-- Whether a possibly-undefined value is exactly the boolean false
(the JS test x !== false is the negation of this). -/
def isBoolFalse : Option Json → Bool
  | some (Json.bool false) => true
  | _ => false

/-- x || y on a possibly-undefined JSON value. -/
def jsOr (o : Option Json) (d : Json) : Json :=
  match o with
  | some v => if jsTruthy v then v else d
  | none => d

/-- x ?? null on a possibly-undefined JSON value. -/
def jsNullish (o : Option Json) : Json := o.getD Json.null

/-- Insignificant whitespace of the JSON grammar. -/
def isJsonWsChar (c : Char) : Bool :=
  c == ' ' || c == '\t' || c == '\n' || c == '\r'

def skipJsonWs : List Char → List Char
  | [] => []
  | c :: rest => if isJsonWsChar c then skipJsonWs rest else c :: rest

def isDigitChar (c : Char) : Bool := 48 ≤ c.toNat && c.toNat ≤ 57

def digitsSpan : List Char → List Char × List Char
  | [] => ([], [])
  | c :: rest =>
    if isDigitChar c then
      match digitsSpan rest with
      | (ds, r) => (c :: ds, r)
    else ([], c :: rest)

def natOfDigitChars (ds : List Char) : Nat :=
  ds.foldl (fun a c => a * 10 + (c.toNat - 48)) 0

def hexDigitVal (c : Char) : Option Nat :=
  if 48 ≤ c.toNat && c.toNat ≤ 57 then some (c.toNat - 48)
  else if 97 ≤ c.toNat && c.toNat ≤ 102 then some (c.toNat - 87)
  else if 65 ≤ c.toNat && c.toNat ≤ 70 then some (c.toNat - 55)
  else none

def hexQuad (a b c d : Char) : Option Nat :=
  match hexDigitVal a, hexDigitVal b, hexDigitVal c, hexDigitVal d with
  | some va, some vb, some vc, some vd => some (((va * 16 + vb) * 16 + vc) * 16 + vd)
  | _, _, _, _ => none

/-- The one-character escapes of the JSON string grammar. -/
def escapeChar : Char → Option Char
  | '\x22' => some '\x22'
  | '\x5c' => some '\x5c'
  | '/' => some '/'
  | 'b' => some (Char.ofNat 8)
  | 'f' => some (Char.ofNat 12)
  | 'n' => some '\n'
  | 'r' => some '\r'
  | 't' => some '\t'
  | _ => none

/-- Body of a JSON string after the opening quote: returns the decoded
characters and what follows the closing quote.  Unescaped control characters
(below 0x20) and bad escapes are rejected, as JSON.parse rejects them. -/
def stringBody (acc : List Char) : List Char → Option (List Char × List Char)
  | '\x22' :: rest => some (acc.reverse, rest)
  | '\x5c' :: 'u' :: a :: b :: c :: d :: rest =>
    (match hexQuad a b c d with
     | some n => stringBody (Char.ofNat n :: acc) rest
     | none => none)
  | '\x5c' :: e :: rest =>
    (match escapeChar e with
     | some ch => stringBody (ch :: acc) rest
     | none => none)
  | c :: rest => if c.toNat < 32 then none else stringBody (c :: acc) rest
  | [] => none

def tenPow (e : Int) : Rat :=
  if 0 ≤ e then ((10 ^ e.toNat : Nat) : Rat) else 1 / ((10 ^ (-e).toNat : Nat) : Rat)

/-- A JSON number token at the head of the input: optional minus, integer part
with no leading zero, optional fraction, optional exponent; exact value. -/
def numberToken (l : List Char) : Option (Rat × List Char) :=
  let signSplit : Bool × List Char :=
    match l with
    | c :: r => if c = '-' then (true, r) else (false, l)
    | [] => (false, [])
  match digitsSpan signSplit.2 with
  | ([], _) => none
  | (ids, l2) =>
    match ids with
    | '0' :: _ :: _ => none
    | _ =>
      let fracPart : Option (List Char × List Char) :=
        match l2 with
        | '.' :: r =>
          (match digitsSpan r with
           | ([], _) => none
           | (fds, l3) => some (fds, l3))
        | _ => some ([], l2)
      match fracPart with
      | none => none
      | some (fds, l3) =>
        let expPart : Option (Int × List Char) :=
          match l3 with
          | c :: r =>
            if c = 'e' ∨ c = 'E' then
              let signedTail : Int × List Char :=
                match r with
                | s :: r2 => if s = '+' then (1, r2) else if s = '-' then (-1, r2) else (1, r)
                | [] => (1, [])
              match digitsSpan signedTail.2 with
              | ([], _) => none
              | (eds, r2) => some (signedTail.1 * (natOfDigitChars eds : Int), r2)
            else some (0, l3)
          | [] => some (0, [])
        match expPart with
        | none => none
        | some (e, l4) =>
          let mag : Rat :=
            ((natOfDigitChars ids : Rat)
              + (natOfDigitChars fds : Rat) / ((10 ^ fds.length : Nat) : Rat)) * tenPow e
          some ((if signSplit.1 then -mag else mag), l4)

/-- Consume an exact keyword tail. -/
def keywordTail : List Char → List Char → Option (List Char)
  | [], rest => some rest
  | a :: ws, b :: rest => if a = b then keywordTail ws rest else none
  | _ :: _, [] => none

mutual

/-- One JSON value at the head of the input (after insignificant whitespace).
Structural on the fuel; jsonParseChars supplies enough fuel that exhaustion
is unreachable on well-formed input. -/
def jsonVal : Nat → List Char → Option (Json × List Char)
  | 0, _ => none
  | Nat.succ fuel, input =>
    match skipJsonWs input with
    | [] => none
    | c :: rest =>
      if c = 'n' then (keywordTail (['u', 'l', 'l']) rest).map (fun r => (Json.null, r))
      else if c = 't' then (keywordTail (['r', 'u', 'e']) rest).map (fun r => (Json.bool true, r))
      else if c = 'f' then (keywordTail (['a', 'l', 's', 'e']) rest).map (fun r => (Json.bool false, r))
      else if c = '\x22' then
        (stringBody [] rest).map (fun p => (Json.str (String.mk p.1), p.2))
      else if c = '\x7b' then
        (match skipJsonWs rest with
         | '\x7d' :: r2 => some (Json.obj [], r2)
         | other => (jsonMembers fuel other []).map (fun p => (Json.obj p.1, p.2)))
      else if c = '[' then
        (match skipJsonWs rest with
         | ']' :: r2 => some (Json.arr [], r2)
         | other => (jsonItems fuel other []).map (fun p => (Json.arr p.1, p.2)))
      else (numberToken (c :: rest)).map (fun p => (Json.num p.1, p.2))

/-- One or more key:value members followed by a closing brace. -/
def jsonMembers : Nat → List Char → List (String × Json) →
    Option (List (String × Json) × List Char)
  | 0, _, _ => none
  | Nat.succ fuel, input, acc =>
    match input with
    | '\x22' :: rest =>
      (match stringBody [] rest with
       | none => none
       | some (key, r1) =>
         match skipJsonWs r1 with
         | ':' :: r2 =>
           (match jsonVal fuel r2 with
            | none => none
            | some (v, r3) =>
              let acc2 := acc ++ [(String.mk key, v)]
              match skipJsonWs r3 with
              | ',' :: r4 => jsonMembers fuel (skipJsonWs r4) acc2
              | '\x7d' :: r4 => some (acc2, r4)
              | _ => none)
         | _ => none)
    | _ => none

/-- One or more array items followed by a closing bracket. -/
def jsonItems : Nat → List Char → List Json → Option (List Json × List Char)
  | 0, _, _ => none
  | Nat.succ fuel, input, acc =>
    match jsonVal fuel input with
    | none => none
    | some (v, r) =>
      match skipJsonWs r with
      | ',' :: r2 => jsonItems fuel r2 (acc ++ [v])
      | ']' :: r2 => some (acc ++ [v], r2)
      | _ => none

end

/-- Model of JSON.parse on a character list: one value, then only whitespace.
none corresponds to JSON.parse throwing a SyntaxError. -/
def jsonParseChars (l : List Char) : Option Json :=
  match jsonVal (l.length + 2) l with
  | some (j, rest) => if skipJsonWs rest = [] then some j else none
  | none => none

/-- Model of JSON.parse on a string. -/
def jsonParse (s : String) : Option Json := jsonParseChars s.data

/-! ### src/index.js — trades.json records and statistics

A DecisionRecord as created by addTradeFromSummary in src/index.js.  The
fields that the embedded functions branch on are given behaviourally exact
types: result is the string tested against "win" / "loss" / "pending" and
for JS falsiness (the empty string is the falsy case that can reach those
tests); risk_r is some q when the stored value is a JS number and none
otherwise, matching every typeof t.risk_r === "number" test in the source;
closedAt is none for the JS null. The remaining fields are carried as the
raw JSON values the source stores and never branches on. -/

structure Trade where
  id : Nat
  time : String
  symbol : Json
  direction : Json
  entry : Json
  stop : Json
  tp1 : Json
  tp15 : Json
  risk_r : Option Rat
  note : Json
  result : String
  closedAt : Option String

/-- src/index.js addTradeFromSummary: the record built from a decision summary
(the push onto the loaded ledger happens in applyRiskAndMaybeLog below).
now is the ISO timestamp string of new Date(); newId models Date.now(). -/
def addTradeFromSummary (summary : Json) (now : String) (newId : Nat) : Trade :=
  ⟨newId, now,
    jsOr (jGet summary ("symbol")) (Json.str ("")),
    jsOr (jGet summary ("direction")) (Json.str ("")),
    jsNullish (jGet summary ("entry")),
    jsNullish (jGet summary ("stop")),
    jsNullish (jGet summary ("tp1")),
    jsNullish (jGet summary ("tp15")),
    (match jGet summary ("risk_r") with
     | some (Json.num q) => some q
     | _ => some 1),
    jsOr (jGet summary ("note")) (Json.str ("")),
    "pending", none⟩

/-- A record counts as finished when result is exactly "win" or "loss". -/
def isFinishedB (t : Trade) : Bool := t.result == "win" || t.result == "loss"

/-- src/index.js computeStats: the per-record risk magnitude
(typeof t.risk_r === "number" ? Math.abs(t.risk_r) : 1). -/
def rUnitOf (t : Trade) : Rat :=
  match t.risk_r with
  | some q => |q|
  | none => 1

/-- The signed contribution of a finished record to the cumulative R sum
(win adds the magnitude, anything else subtracts it; in the source this is
only applied to win/loss records). -/
def signedStep (s : Rat) (t : Trade) : Rat :=
  s + (if t.result == "win" then rUnitOf t else -(rUnitOf t))

/-- The finished (terminal) sub-ledger, in chronological order. -/
def finishedOf (trades : List Trade) : List Trade := trades.filter isFinishedB

/-- Consecutive losses counted walking backward from the latest finished
record (the for-loop with break in src/index.js computeStats). -/
def consecLossOf (finished : List Trade) : Nat :=
  (finished.reverse.takeWhile (fun t => t.result == "loss")).length

/-- Math.round: round half toward positive infinity. -/
def jsRound (q : Rat) : Int := ⌊q + 1 / 2⌋

structure Stats where
  total : Nat
  wins : Nat
  losses : Nat
  winRate : Int
  totalR : Rat
  consecutiveLoss : Nat

/-- src/index.js computeStats (lines 205-226). -/
def computeStats (trades : List Trade) : Stats :=
  let finished := finishedOf trades
  let total := finished.length
  let wins := (finished.filter (fun t => t.result == "win")).length
  let losses := (finished.filter (fun t => t.result == "loss")).length
  let winRate : Int := if total = 0 then 0 else jsRound ((wins : Rat) / (total : Rat) * 100)
  let totalR : Rat := finished.foldl signedStep 0
  ⟨total, wins, losses, winRate, totalR, consecLossOf finished⟩

/-! ### src/index.js — the risk gate -/

structure RiskResult where
  allow : Bool
  message : String

/-- The configured consecutive-loss threshold (src/index.js line 233). -/
def maxConsecutiveLossLimit : Nat := 3

/-- The configured daily cumulative-R stop (src/index.js line 234). -/
def maxDailyLossR : Rat := -3

/-- toFixed(2) on an exact rational: nearest hundredth, ties toward the
larger value, rendered with exactly two decimals (the ECMAScript Number
toFixed rule, on the exact value). -/
def toFixed2 (q : Rat) : String :=
  let n : Int := ⌊q * 100 + 1 / 2⌋
  let sign := if n < 0 then ("-") else ("")
  let m := n.natAbs
  let cents := m % 100
  sign ++ toString (m / 100) ++ "." ++ (if cents < 10 then ("0") ++ toString cents else toString cents)

/-- The consecutive-loss block message of evaluateRiskBeforeNewTrade. -/
def pauseMessage (n : Nat) : String :=
  "⚠️ 風控提醒：你已連續虧損 " ++ toString n ++ " 單。\n" ++
    "依照獵影策略風控，建議暫停交易、只觀察盤勢。\n" ++
    "這次我會照樣給你分析，但不紀錄成新的一筆交易。"

/-- The daily-loss block message of evaluateRiskBeforeNewTrade (the constant
maxDailyLossR = -3 renders as -3 in the template). -/
def dailyLossMessage (todayR : Rat) : String :=
  "⚠️ 風控提醒：你今天累積約 " ++ toFixed2 todayR ++ " R 虧損，已達每日風控上限（約 -3 R）。\n" ++
    "今天不建議再開新倉，先休息、復盤會更安全。這次我一樣幫你分析，但不紀錄成新的一筆交易。"

/-- JS truthiness of the closedAt field (null and the empty string are falsy). -/
def closedAtTruthy (t : Trade) : Bool :=
  match t.closedAt with
  | some s => s != ""
  | none => false

/-- Membership of a finished record in the current calendar day, exactly as
the filter in evaluateRiskBeforeNewTrade tests it: closedAt startsWith today
when closedAt is truthy, else (when time is truthy) time startsWith today. -/
def inTodayB (todayStr : String) (t : Trade) : Bool :=
  (closedAtTruthy t && listStartsWith (t.closedAt.getD ("")).data todayStr.data)
    || (!closedAtTruthy t && t.time != "" && listStartsWith t.time.data todayStr.data)

/-- The finishedToday sub-ledger of evaluateRiskBeforeNewTrade. -/
def finishedTodayOf (trades : List Trade) (todayStr : String) : List Trade :=
  trades.filter (fun t => isFinishedB t && inTodayB todayStr t)

/-- The todayR accumulator of evaluateRiskBeforeNewTrade: signed risk units
of the records finished today. -/
def todayROf (trades : List Trade) (todayStr : String) : Rat :=
  (finishedTodayOf trades todayStr).foldl signedStep 0

/-- src/index.js evaluateRiskBeforeNewTrade (lines 228-272), as a function of
the loaded ledger and of the current day string (new Date().toISOString()
sliced to YYYY-MM-DD in the source). -/
def evaluateRiskBeforeNewTrade (trades : List Trade) (todayStr : String) : RiskResult :=
  let stats := computeStats trades
  if maxConsecutiveLossLimit ≤ stats.consecutiveLoss then
    ⟨false, pauseMessage stats.consecutiveLoss⟩
  else
    let todayR := todayROf trades todayStr
    if todayR ≤ maxDailyLossR then ⟨false, dailyLossMessage todayR⟩
    else ⟨true, ""⟩

/-! ### src/index.js — result command, extraction, gate wiring -/

/-- A record the #結果 command can close: result falsy or exactly "pending". -/
def isPendingB (t : Trade) : Bool := t.result == "" || t.result == "pending"

/-- Index of the last closable record (the backward for-loop in
handleResultCommand). -/
def lastPendingIdx : List Trade → Option Nat
  | [] => none
  | t :: ts =>
    match lastPendingIdx ts with
    | some i => some (i + 1)
    | none => if isPendingB t then some 0 else none

/-- The win synonyms test of handleResultCommand, on the lowercased text. -/
def isWinTextB (userText : String) : Bool :=
  let lower := (jsLower userText).data
  containsSub lower (("勝").data) || containsSub lower (("贏").data)
    || containsSub lower (("win").data)

/-- The loss synonyms test of handleResultCommand, on the lowercased text. -/
def isLossTextB (userText : String) : Bool :=
  let lower := (jsLower userText).data
  containsSub lower (("敗").data) || containsSub lower (("虧").data)
    || containsSub lower (("輸").data) || containsSub lower (("loss").data)

def helpResultMessage : String :=
  "要更新交易結果，請這樣輸入：\n\n#結果 勝\n或\n#結果 敗"

def noTradesMessage : String :=
  "目前沒有任何交易紀錄，先讓我幫你找一個進場點再說吧。"

def noOpenMessage : String :=
  "目前沒有未結束的交易紀錄，可以先讓我幫你找新的進場機會。"

/-- The statistics summary sent after a successful #結果 update. -/
def resultUpdatedMessage (isWin : Bool) (stats : Stats) : String :=
  "已更新上一筆交易結果為：" ++ (if isWin then ("✅ 勝") else ("❌ 敗")) ++ "。\n\n" ++
    "目前統計（已結束）：\n" ++
    "- 總筆數：" ++ toString stats.total ++ "\n" ++
    "- 勝率：約 " ++ toString stats.winRate ++ "%\n" ++
    "- 連續虧損：" ++ toString stats.consecutiveLoss ++ " 單\n" ++
    "- 累積 R 值：約 " ++ toFixed2 stats.totalR ++ " R"

/-- The record at index i closed with the given result and close time; the
other fields are untouched (the two assignments in handleResultCommand). -/
def closeTradeAt (trades : List Trade) (i : Nat) (res : String) (now : String) : List Trade :=
  match trades[i]? with
  | some t =>
    trades.set i ⟨t.id, t.time, t.symbol, t.direction, t.entry, t.stop, t.tp1, t.tp15,
      t.risk_r, t.note, res, some now⟩
  | none => trades

/-- src/index.js handleResultCommand (lines 275-323), as a function of the
loaded ledger: returns the ledger afterwards and the reply text sent to the
user (the replyToLine transport is outside the core). -/
def handleResultCommand (userText : String) (trades : List Trade) (now : String) :
    List Trade × String :=
  let isWin := isWinTextB userText
  let isLoss := isLossTextB userText
  if !isWin && !isLoss then (trades, helpResultMessage)
  else if trades.isEmpty then (trades, noTradesMessage)
  else
    match lastPendingIdx trades with
    | none => (trades, noOpenMessage)
    | some i =>
      let trades2 := closeTradeAt trades i (if isWin then ("win") else ("loss")) now
      (trades2, resultUpdatedMessage isWin (computeStats trades2))

/-- src/index.js extractDecisionSummary (lines 326-337): trim the reply, take
the last line, and JSON.parse it when it is brace-delimited; null otherwise
(the guard on an empty line array in the source is unreachable, since split
always yields at least one segment, and corresponds to the none branch of
getLast? here). -/
def extractDecisionSummary (fullAnswer : String) : Option Json :=
  let lines := splitOnChar ('\n') (jsTrimChars fullAnswer.data)
  match lines.getLast? with
  | none => none
  | some ll =>
    let lastLine := jsTrimChars ll
    if listStartsWith lastLine (['\x7b']) && listEndsWith lastLine (['\x7d']) then
      jsonParseChars lastLine
    else none

/-- The statistics footer appended by applyRiskAndMaybeLog after logging. -/
def statsFooter (stats : Stats) : String :=
  "\n\n——\n" ++
    "📊 目前簡易統計（已結束交易）：\n" ++
    "- 總筆數：" ++ toString stats.total ++ "\n" ++
    "- 勝率：約 " ++ toString stats.winRate ++ "%\n" ++
    "- 連續虧損：" ++ toString stats.consecutiveLoss ++ " 單\n" ++
    "- 累積 R 值：約 " ++ toFixed2 stats.totalR ++ " R\n" ++
    "※ 出場後記得用「#結果 勝」或「#結果 敗」更新，風控才會幫你擋子彈。"

/-- src/index.js applyRiskAndMaybeLog (lines 340-371), as a function of the
loaded ledger: returns the ledger afterwards and the reply text.  The source
re-reads the file between the append and the statistics, which under the
single-event model reads back exactly the appended list. -/
def applyRiskAndMaybeLog (trades : List Trade) (todayStr now : String) (newId : Nat)
    (fullAnswer : String) : List Trade × String :=
  match extractDecisionSummary fullAnswer with
  | none => (trades, fullAnswer)
  | some summary =>
    if !(jsTruthyOpt (jGet summary ("is_trade"))) then (trades, fullAnswer)
    else
      let risk := evaluateRiskBeforeNewTrade trades todayStr
      if !risk.allow then (trades, risk.message ++ "\n\n" ++ fullAnswer)
      else
        let trades2 := trades ++ [addTradeFromSummary summary now newId]
        (trades2, fullAnswer ++ statsFooter (computeStats trades2))

/-- src/index.js loadTrades (lines 163-173) at the storage level: the file
content (none when the file does not exist), JSON.parse, and the
Array.isArray guard; any failure yields the empty collection.  The elements
are returned as raw JSON values, as JSON.parse returns them. -/
def loadTrades (content : Option String) : List Json :=
  match content with
  | none => []
  | some raw =>
    match jsonParse raw with
    | none => []
    | some (Json.arr l) => l
    | some _ => []

/-! ### src/unnamed/part_005 — dashboard statistics and fenced-JSON extraction -/

namespace Variant5

/-- A trade record as created by the part_005 webhook (lines 565-582): the
numeric fields are some q when the analysis supplied a JS number and none
otherwise; result and marketState carry the stored strings. -/
structure TradeRec where
  id : String
  ts : String
  source : String
  marketState : String
  strategyAllowed : Option Bool
  direction : String
  entryPrice : Option Rat
  stopLoss : Option Rat
  takeProfit1R : Option Rat
  takeProfit15R : Option Rat
  rMultiple : Option Rat
  result : String
  obvState : String
  bbState : String
  patternType : String
  reason : String

structure StatsRec where
  total : Nat
  winCount : Nat
  loseCount : Nat
  winRate : Rat
  avgR : Rat
  totalR : Rat
  maxDrawdown : Rat
  maxConsecutiveLosses : Nat
  last30WinRate : Rat
  equityCurve : List (Nat × Rat)
  marketStateCounts : Nat × Nat × Nat

/-- The per-record signed risk multiple of part_005 computeStats
(typeof t.rMultiple === "number" ? t.rMultiple : 0 — already signed,
unlike the index.js variant). -/
def rOf (t : TradeRec) : Rat := t.rMultiple.getD 0

/-- t.marketState || "unknown". -/
def marketOf (t : TradeRec) : String :=
  if t.marketState == "" then ("unknown") else t.marketState

/-- The running state of the forEach loop in part_005 computeStats. -/
structure LoopState where
  winCount : Nat
  loseCount : Nat
  totalR : Rat
  equity : Rat
  peak : Rat
  maxDrawdown : Rat
  maxConsecLoss : Nat
  curConsecLoss : Nat
  equityCurve : List (Nat × Rat)
  rangeCount : Nat
  trendCount : Nat
  unknownCount : Nat
  idx : Nat

/-- One iteration of the forEach loop in part_005 computeStats (lines
160-189): win/lose counting (a loss only counts when result is exactly
"lose"), the consecutive-lose streak, market-state counts, cumulative R,
the running equity/peak/drawdown, and the equity-curve entry. -/
def stepStats (a : LoopState) (t : TradeRec) : LoopState :=
  let r := rOf t
  let winCount := if t.result == "win" then a.winCount + 1 else a.winCount
  let loseCount := if t.result == "lose" then a.loseCount + 1 else a.loseCount
  let curConsecLoss :=
    if t.result == "lose" then a.curConsecLoss + 1
    else if t.result == "win" then 0
    else a.curConsecLoss
  let maxConsecLoss :=
    if t.result == "lose" then max a.maxConsecLoss (a.curConsecLoss + 1)
    else a.maxConsecLoss
  let rangeCount := if marketOf t == "range" then a.rangeCount + 1 else a.rangeCount
  let trendCount :=
    if marketOf t != "range" && marketOf t == "trend" then a.trendCount + 1 else a.trendCount
  let unknownCount :=
    if marketOf t != "range" && marketOf t != "trend" then a.unknownCount + 1
    else a.unknownCount
  let equity := a.equity + r
  let peak := max a.peak equity
  let maxDrawdown := max a.maxDrawdown (peak - equity)
  ⟨winCount, loseCount, a.totalR + r, equity, peak, maxDrawdown, maxConsecLoss,
    curConsecLoss, a.equityCurve ++ [(a.idx + 1, equity)], rangeCount, trendCount,
    unknownCount, a.idx + 1⟩

/-- src/unnamed/part_005 computeStats (lines 130-215).  The source keeps a
list rList of every record's r and computes avgR as its sum over its length;
that sum is exactly totalR and that length exactly total, so avgR is written
with them here.  last30WinRate counts wins within trades.slice(-30) — the
last thirty records of the whole ledger, pending ones included, as in the
source. -/
def computeStats (trades : List TradeRec) : StatsRec :=
  if trades.isEmpty then ⟨0, 0, 0, 0, 0, 0, 0, 0, 0, [], (0, 0, 0)⟩
  else
    let a := trades.foldl stepStats ⟨0, 0, 0, 0, 0, 0, 0, 0, [], 0, 0, 0, 0⟩
    let total := trades.length
    let winRate : Rat := if total = 0 then 0 else (a.winCount : Rat) / (total : Rat) * 100
    let avgR : Rat := if total = 0 then 0 else a.totalR / (total : Rat)
    let recent := trades.drop (trades.length - 30)
    let rWin := (recent.filter (fun t => t.result == "win")).length
    let last30 : Rat :=
      if recent.length = 0 then 0 else (rWin : Rat) / (recent.length : Rat) * 100
    ⟨total, a.winCount, a.loseCount, winRate, avgR, a.totalR, a.maxDrawdown,
      a.maxConsecLoss, last30, a.equityCurve, (a.rangeCount, a.trendCount, a.unknownCount)⟩

/-- The return shape of parseJsonFromGeminiText. -/
structure GeminiParsed where
  json : Option Json
  raw : String

def btick : Char := '\x60'

/-- Whether the input begins with three backticks. -/
def startsTriple : List Char → Bool
  | x :: y :: z :: _ => x == btick && y == btick && z == btick
  | _ => false

/-- Whether the input begins with three backticks followed by json
(case-insensitively, the i flag of the source regex); returns the remainder. -/
def fenceHeadAt : List Char → Option (List Char)
  | b1 :: b2 :: b3 :: j :: s :: o :: n :: rest =>
    if b1 == btick && b2 == btick && b3 == btick && j.toLower == 'j' && s.toLower == 's'
        && o.toLower == 'o' && n.toLower == 'n' then some rest
    else none
  | _ => none

/-- The characters before the first closing triple-backtick; none when the
fence never closes (the lazy capture of the source regex). -/
def untilFence : List Char → Option (List Char)
  | [] => none
  | c :: rest =>
    if startsTriple (c :: rest) then some []
    else (untilFence rest).map (fun t => c :: t)

/-- The capture of the first match of the regex on three backticks, json,
a lazy body, three backticks: earliest opening fence that also closes, with
the shortest body (a non-closing opening fence makes the engine retry from
the next position, exactly as the scan below does). -/
def findFence : List Char → Option (List Char)
  | [] => none
  | c :: rest =>
    match fenceHeadAt (c :: rest) with
    | some after =>
      (match untilFence after with
       | some inner => some inner
       | none => findFence rest)
    | none => findFence rest

/-- src/unnamed/part_005 parseJsonFromGeminiText (lines 441-460): empty text
short-circuits; a fenced json block is preferred, else the whole trimmed
text is parsed; a parse failure yields json = none with the raw text. -/
def parseJsonFromGeminiText (text : String) : GeminiParsed :=
  if text == "" then ⟨none, ""⟩
  else
    let jsonStr : List Char :=
      match findFence text.data with
      | some inner => jsTrimChars inner
      | none => jsTrimChars text.data
    ⟨jsonParseChars jsonStr, text⟩

end Variant5

/-! ### src/logger.js lines 1269-1316 = src/unnamed/part_003 lines 1290-1337 —
regime classification (the pure post-processing of the classifier reply;
the AI call itself and the missing-API-key guard are outside the model). -/

structure RegimeResult where
  regime : String
  strategyAllowed : Bool
  reason : Json

/-- The JSON value recovered from the classifier reply: the slice from the
first opening brace to the last closing brace, JSON.parsed; none both when a
brace is missing (the throw on no json) and when JSON.parse fails — the two
paths into the same catch block. -/
def replyJson (raw : String) : Option Json :=
  match firstIdxOf ('\x7b') raw.data, lastIdxOf ('\x7d') raw.data with
  | some i, some k => jsonParseChars ((raw.data.drop i).take (k + 1 - i))
  | _, _ => none

/-- The regime normalization inside classifyRegime: parsed.regime || "unknown"
followed by the closed-vocabulary check (out-of-vocabulary, falsy and
non-string values all map to "unknown"). -/
def regimeOf (parsed : Json) : String :=
  match jGet parsed ("regime") with
  | some v =>
    if jsTruthy v then
      match v with
      | Json.str s => if s == "range" || s == "trend" || s == "unknown" then s else ("unknown")
      | _ => ("unknown")
    else ("unknown")
  | none => ("unknown")

/-- classifyRegime as a function of the raw classifier reply: on any failure
to recover JSON, the fail-closed record with reason "parse error"; otherwise
the normalized regime, strategyAllowed true only for regime "range" without
an explicit strategyAllowed === false, and the reason field of the reply (or
the empty string when falsy).  The source binds the normalized regime once
and uses it twice; regimeOf names that value. -/
def classifyRegime (raw : String) : RegimeResult :=
  match replyJson raw with
  | none => ⟨"unknown", false, Json.str ("parse error")⟩
  | some parsed =>
    ⟨regimeOf parsed,
      regimeOf parsed == "range" && !(isBoolFalse (jGet parsed ("strategyAllowed"))),
      jsOr (jGet parsed ("reason")) (Json.str (""))⟩

/-! ### Helper lemmas -/

theorem takeWhile_append_all {α : Type} (p : α → Bool) :
    ∀ (l₁ l₂ : List α), (∀ x ∈ l₁, p x = true) →
      List.takeWhile p (l₁ ++ l₂) = l₁ ++ List.takeWhile p l₂
  | [], _, _ => rfl
  | a :: l₁, l₂, h => by
    have ha : p a = true := h a (by simp)
    have ih := takeWhile_append_all p l₁ l₂ (fun x hx => h x (by simp [hx]))
    simp [List.takeWhile_cons, ha, ih]

theorem consecLossOf_ge (pre suf : List Trade) (h : ∀ t ∈ suf, t.result = "loss") :
    suf.length ≤ consecLossOf (pre ++ suf) := by
  unfold consecLossOf
  rw [List.reverse_append]
  rw [takeWhile_append_all _ suf.reverse pre.reverse (by
    intro x hx
    have hx2 := h x (List.mem_reverse.mp hx)
    simp [hx2])]
  simp

theorem consecLossOf_win_tail (pre : List Trade) (w : Trade) (hw : w.result = "win") :
    consecLossOf (pre ++ [w]) = 0 := by
  unfold consecLossOf
  rw [List.reverse_append]
  simp [List.takeWhile_cons, hw]

theorem computeStats_consecutiveLoss (trades : List Trade) :
    (computeStats trades).consecutiveLoss = consecLossOf (finishedOf trades) := rfl

theorem computeStats_unfold (trades : List Trade) :
    computeStats trades =
      ⟨(finishedOf trades).length,
        ((finishedOf trades).filter (fun t => t.result == "win")).length,
        ((finishedOf trades).filter (fun t => t.result == "loss")).length,
        (if (finishedOf trades).length = 0 then 0
         else jsRound ((((finishedOf trades).filter (fun t => t.result == "win")).length : Rat)
            / (((finishedOf trades).length : Nat) : Rat) * 100)),
        (finishedOf trades).foldl signedStep 0,
        consecLossOf (finishedOf trades)⟩ := rfl

/-! ### Concrete ledgers used by witnesses and counterexamples -/

/-- A finished 1R losing record. -/
def lossDemo : Trade :=
  ⟨1, "2024-01-01T00:00:00.000Z", Json.str (""), Json.str ("long"), Json.null, Json.null,
    Json.null, Json.null, some 1, Json.str (""), "loss", some ("2024-01-01T01:00:00.000Z")⟩

/-- A finished 1R winning record. -/
def winDemo : Trade :=
  ⟨2, "2024-01-01T00:10:00.000Z", Json.str (""), Json.str ("long"), Json.null, Json.null,
    Json.null, Json.null, some 1, Json.str (""), "win", some ("2024-01-01T01:10:00.000Z")⟩

/-- Three consecutive terminal losses. -/
def demoLossLedger : List Trade := [lossDemo, lossDemo, lossDemo]

/-- Two terminal losses followed by a terminal win. -/
def demoRecoveryLedger : List Trade := [lossDemo, lossDemo, winDemo]

/-- A finished 2R losing record closed on 2024-01-02. -/
def loss2Demo : Trade :=
  ⟨3, "2024-01-02T00:00:00.000Z", Json.str (""), Json.str ("short"), Json.null, Json.null,
    Json.null, Json.null, some 2, Json.str (""), "loss", some ("2024-01-02T01:00:00.000Z")⟩

/-- A finished 1R winning record closed on 2024-01-02. -/
def win1Demo : Trade :=
  ⟨4, "2024-01-02T00:05:00.000Z", Json.str (""), Json.str ("long"), Json.null, Json.null,
    Json.null, Json.null, some 1, Json.str (""), "win", some ("2024-01-02T01:05:00.000Z")⟩

/-- Loses 2R, wins 1R, loses 2R, all closed on 2024-01-02: one trailing loss
and a daily sum of exactly -3R. -/
def demoDailyLedger : List Trade := [loss2Demo, win1Demo, loss2Demo]

/-- C1: for every ledger whose terminal records end with at least three
consecutive losses (walking backward from the most recent terminal record),
evaluateRiskBeforeNewTrade blocks with the pause-and-observe message,
regardless of any other history; and for a ledger whose terminal records end
with two losses followed by a win, it allows, absent the daily-loss
condition. -/
theorem evaluateRisk_consecutive_loss_stop :
    (∀ (trades : List Trade) (todayStr : String) (pre suf : List Trade),
      finishedOf trades = pre ++ suf → 3 ≤ suf.length →
      (∀ t ∈ suf, t.result = "loss") →
      evaluateRiskBeforeNewTrade trades todayStr =
        ⟨false, pauseMessage (computeStats trades).consecutiveLoss⟩)
    ∧
    (∀ (trades : List Trade) (todayStr : String) (pre : List Trade) (a b w : Trade),
      finishedOf trades = pre ++ [a, b, w] →
      a.result = "loss" → b.result = "loss" → w.result = "win" →
      ¬ todayROf trades todayStr ≤ maxDailyLossR →
      evaluateRiskBeforeNewTrade trades todayStr = ⟨true, ""⟩) := by
  constructor
  · intro trades todayStr pre suf hfin hlen hall
    have h3 : maxConsecutiveLossLimit ≤ (computeStats trades).consecutiveLoss := by
      rw [computeStats_consecutiveLoss, hfin]
      exact le_trans hlen (consecLossOf_ge pre suf hall)
    simp only [evaluateRiskBeforeNewTrade]
    rw [if_pos h3]
  · intro trades todayStr pre a b w hfin ha hb hw htoday
    have h0 : (computeStats trades).consecutiveLoss = 0 := by
      rw [computeStats_consecutiveLoss, hfin]
      have hsplit : pre ++ [a, b, w] = (pre ++ [a, b]) ++ [w] := by simp
      rw [hsplit]
      exact consecLossOf_win_tail _ w hw
    have hlt : ¬ maxConsecutiveLossLimit ≤ (computeStats trades).consecutiveLoss := by
      simp [h0, maxConsecutiveLossLimit]
    simp only [evaluateRiskBeforeNewTrade]
    rw [if_neg hlt, if_neg htoday]

/-- C1 witness: on three concrete consecutive losses the gate blocks with the
pause message; after two losses and a win (with no activity on the evaluated
day) it allows. -/
theorem evaluateRisk_consecutive_loss_stop_witness :
    evaluateRiskBeforeNewTrade demoLossLedger ("2099-09-09") = ⟨false, pauseMessage 3⟩
    ∧ evaluateRiskBeforeNewTrade demoRecoveryLedger ("2099-09-09") = ⟨true, ""⟩ := by
  constructor
  · have h := evaluateRisk_consecutive_loss_stop.1 demoLossLedger ("2099-09-09")
      [] demoLossLedger (by rfl) (by decide)
      (by intro t ht; fin_cases ht <;> rfl)
    have hc : (computeStats demoLossLedger).consecutiveLoss = 3 := by decide
    rw [hc] at h
    exact h
  · have ht : todayROf demoRecoveryLedger ("2099-09-09") = 0 := rfl
    exact evaluateRisk_consecutive_loss_stop.2 demoRecoveryLedger ("2099-09-09")
      [] lossDemo lossDemo winDemo (by rfl) (by rfl) (by rfl) (by rfl)
      (by rw [ht]; norm_num [maxDailyLossR])

/-- C2: for every ledger that does not trigger the consecutive-loss stop, the
gate blocks with the daily-loss message exactly when the signed risk-unit sum
over the records finished on the current calendar day is at most -3R, and
allows otherwise. -/
theorem evaluateRisk_daily_loss_stop (trades : List Trade) (todayStr : String)
    (hc : (computeStats trades).consecutiveLoss < maxConsecutiveLossLimit) :
    (todayROf trades todayStr ≤ maxDailyLossR →
      evaluateRiskBeforeNewTrade trades todayStr =
        ⟨false, dailyLossMessage (todayROf trades todayStr)⟩)
    ∧ (¬ todayROf trades todayStr ≤ maxDailyLossR →
        evaluateRiskBeforeNewTrade trades todayStr = ⟨true, ""⟩) := by
  have hlt : ¬ maxConsecutiveLossLimit ≤ (computeStats trades).consecutiveLoss :=
    Nat.not_le.mpr hc
  constructor
  · intro h
    simp only [evaluateRiskBeforeNewTrade]
    rw [if_neg hlt, if_pos h]
  · intro h
    simp only [evaluateRiskBeforeNewTrade]
    rw [if_neg hlt, if_neg h]

/-- C2 witness: a concrete ledger with one trailing loss and -3R summed over
the records closed on 2024-01-02 is blocked with the daily-loss message. -/
theorem evaluateRisk_daily_loss_stop_witness :
    evaluateRiskBeforeNewTrade demoDailyLedger ("2024-01-02") =
      ⟨false, dailyLossMessage (-3)⟩ := by
  have hfil : finishedTodayOf demoDailyLedger ("2024-01-02") = demoDailyLedger := rfl
  have ht : todayROf demoDailyLedger ("2024-01-02") = -3 := by
    have h2 : |(2 : Rat)| = 2 := abs_of_nonneg (by norm_num)
    have h1 : |(1 : Rat)| = 1 := abs_of_nonneg (by norm_num)
    unfold todayROf
    rw [hfil]
    simp [demoDailyLedger, signedStep, rUnitOf, loss2Demo, win1Demo, h1, h2]
    norm_num
  have hc : (computeStats demoDailyLedger).consecutiveLoss < maxConsecutiveLossLimit := by
    decide
  have h := (evaluateRisk_daily_loss_stop demoDailyLedger ("2024-01-02") hc).1
    (by rw [ht]; norm_num [maxDailyLossR])
  rw [ht] at h
  exact h

/-- C3: whenever a structured decision with a truthy is_trade is extracted
from the reply but the risk gate blocks, applyRiskAndMaybeLog still returns
the informational text, prefixed with the block message, and the ledger is
returned unchanged: no record is appended. -/
theorem blocked_gate_returns_text_without_logging
    (trades : List Trade) (todayStr now : String) (newId : Nat)
    (fullAnswer : String) (summary : Json)
    (hext : extractDecisionSummary fullAnswer = some summary)
    (htr : jsTruthyOpt (jGet summary ("is_trade")) = true)
    (hblock : (evaluateRiskBeforeNewTrade trades todayStr).allow = false) :
    applyRiskAndMaybeLog trades todayStr now newId fullAnswer =
      (trades, (evaluateRiskBeforeNewTrade trades todayStr).message ++ "\n\n" ++ fullAnswer) := by
  simp only [applyRiskAndMaybeLog, hext]
  simp [htr, hblock]

/-- An AI reply whose last line is the decision payload. -/
def demoAnswer : String := "好的，這裡是分析。\n\x7b\x22is_trade\x22: true\x7d"

/-- C3 witness: on a ledger with three consecutive losses the reply is the
pause message, two newlines, then the AI text, and the ledger value is
returned as it was. -/
theorem blocked_gate_witness :
    applyRiskAndMaybeLog demoLossLedger ("2099-09-09") ("2099-09-09T00:00:00.000Z") 7 demoAnswer
      = (demoLossLedger, pauseMessage 3 ++ "\n\n" ++ demoAnswer) := by
  have hmsg : (evaluateRiskBeforeNewTrade demoLossLedger ("2099-09-09")).message
      = pauseMessage 3 := by rfl
  have h := blocked_gate_returns_text_without_logging demoLossLedger ("2099-09-09")
    ("2099-09-09T00:00:00.000Z") 7 demoAnswer (Json.obj [("is_trade", Json.bool true)])
    (by rfl) (by rfl) (by rfl)
  rw [hmsg] at h
  exact h

theorem lastPendingIdx_eq_none (l : List Trade) (h : ∀ t ∈ l, isPendingB t = false) :
    lastPendingIdx l = none := by
  induction l with
  | nil => rfl
  | cons t ts ih =>
    have hts := ih (fun x hx => h x (by simp [hx]))
    simp [lastPendingIdx, hts, h t (by simp)]

/-- C9: the #結果 command with a recognized win/loss word, on a ledger with no
pending record, changes no record and replies with the no-open-position
message (or the empty-ledger message when the ledger is empty). -/
theorem close_without_open_is_safe (userText : String) (trades : List Trade) (now : String)
    (hcmd : isWinTextB userText = true ∨ isLossTextB userText = true)
    (hnone : ∀ t ∈ trades, isPendingB t = false) :
    handleResultCommand userText trades now =
      (trades, if trades.isEmpty then noTradesMessage else noOpenMessage) := by
  have hli := lastPendingIdx_eq_none trades hnone
  have hfirst : (!isWinTextB userText && !isLossTextB userText) = false := by
    rcases hcmd with h | h <;> simp [h]
  by_cases he : trades.isEmpty
  · simp [handleResultCommand, hfirst, he]
  · simp [handleResultCommand, hfirst, he, hli]

/-- C9 witness: closing on a ledger whose single record is already terminal
replies with the no-open-position message and returns the ledger unchanged. -/
theorem close_without_open_witness :
    handleResultCommand ("#結果 勝") [winDemo] ("2024-01-03T00:00:00.000Z")
      = ([winDemo], noOpenMessage) := by
  have h := close_without_open_is_safe ("#結果 勝") [winDemo] ("2024-01-03T00:00:00.000Z")
    (Or.inl (by decide)) (by intro t ht; fin_cases ht; rfl)
  simpa using h

/-- Whether a JSON value is an array (the Array.isArray test). -/
def isArrB : Json → Bool
  | Json.arr _ => true
  | _ => false

/-- C10: if the stored payload is not valid JSON, or is valid JSON that is
not an array, every read through loadTrades yields the empty collection
rather than a fault; a missing file also reads as empty. -/
theorem corrupt_storage_reads_empty (raw : String) :
    (jsonParse raw = none → loadTrades (some raw) = [])
    ∧ (∀ j, jsonParse raw = some j → isArrB j = false → loadTrades (some raw) = [])
    ∧ loadTrades none = [] := by
  refine ⟨?_, ?_, rfl⟩
  · intro h
    simp [loadTrades, h]
  · intro j hj hna
    cases j with
    | arr l => simp [isArrB] at hna
    | null => simp [loadTrades, hj]
    | bool b => simp [loadTrades, hj]
    | num q => simp [loadTrades, hj]
    | str s => simp [loadTrades, hj]
    | obj m => simp [loadTrades, hj]

/-- C10 witness: a non-JSON payload and a JSON non-array payload both read as
the empty collection. -/
theorem corrupt_storage_witness :
    loadTrades (some ("not json at all")) = [] ∧ loadTrades (some ("\x22hi\x22")) = [] :=
  ⟨(corrupt_storage_reads_empty ("not json at all")).1 rfl,
   (corrupt_storage_reads_empty ("\x22hi\x22")).2.1 (Json.str ("hi")) rfl rfl⟩

/-! ### Extraction characterization (C4, C5) -/

/-- The trimmed last line that extractDecisionSummary inspects. -/
def lastLineOf (s : String) : List Char :=
  match (splitOnChar ('\n') (jsTrimChars s.data)).getLast? with
  | some ll => jsTrimChars ll
  | none => []

theorem splitOnChar_ne_nil (sep : Char) (l : List Char) : splitOnChar sep l ≠ [] := by
  induction l with
  | nil => simp [splitOnChar]
  | cons c rest ih =>
    simp only [splitOnChar]
    by_cases h : c = sep
    · simp [h]
    · simp only [h, if_false]
      cases hsc : splitOnChar sep rest with
      | nil => simp
      | cons g gs => simp

/-- extractDecisionSummary in closed form: JSON.parse of the trimmed last
line when it is brace-delimited, null otherwise. -/
theorem extractDecisionSummary_eq (s : String) :
    extractDecisionSummary s =
      (if listStartsWith (lastLineOf s) (['\x7b']) && listEndsWith (lastLineOf s) (['\x7d'])
       then jsonParseChars (lastLineOf s) else none) := by
  simp only [extractDecisionSummary, lastLineOf]
  cases hg : (splitOnChar ('\n') (jsTrimChars s.data)).getLast? with
  | none =>
    exact absurd (List.getLast?_eq_none_iff.mp hg) (splitOnChar_ne_nil _ _)
  | some ll => rfl

/-- Whether a JSON value is an object. -/
def isObjB : Json → Bool
  | Json.obj _ => true
  | _ => false

theorem jsonVal_brace_obj (fuel : Nat) (l : List Char) (j : Json) (r : List Char)
    (hstart : listStartsWith l (['\x7b']) = true)
    (h : jsonVal fuel l = some (j, r)) : isObjB j = true := by
  cases fuel with
  | zero => simp [jsonVal] at h
  | succ f =>
    obtain ⟨rest, rfl⟩ : ∃ rest, l = '\x7b' :: rest := by
      cases l with
      | nil => simp [listStartsWith] at hstart
      | cons c rest =>
        simp [listStartsWith] at hstart
        exact ⟨rest, by rw [hstart]⟩
    have hws : skipJsonWs ('\x7b' :: rest) = '\x7b' :: rest := by
      simp [skipJsonWs, isJsonWsChar]
    simp only [jsonVal, hws] at h
    rw [if_neg (by decide), if_neg (by decide), if_neg (by decide), if_neg (by decide),
      if_pos trivial] at h
    split at h
    · simp only [Option.some.injEq, Prod.mk.injEq] at h
      rw [← h.1]
      rfl
    · obtain ⟨p, hp, hfp⟩ := Option.map_eq_some'.mp h
      simp only [Prod.mk.injEq] at hfp
      rw [← hfp.1]
      rfl

/-- C4: the decision extractor is a total function (the Option result is the
model of never throwing), it is deterministic, every non-null result is a
JSON object (the parsed record), and any input whose trimmed last line is
not brace-delimited — in particular the empty string and strings with no
JSON — yields null. -/
theorem extract_total_welltyped_deterministic (s : String) :
    extractDecisionSummary s = extractDecisionSummary s
    ∧ (∀ j, extractDecisionSummary s = some j → isObjB j = true)
    ∧ ((listStartsWith (lastLineOf s) (['\x7b']) && listEndsWith (lastLineOf s) (['\x7d'])) = false →
        extractDecisionSummary s = none) := by
  refine ⟨rfl, ?_, ?_⟩
  · intro j hj
    rw [extractDecisionSummary_eq] at hj
    by_cases hg : (listStartsWith (lastLineOf s) (['\x7b'])
        && listEndsWith (lastLineOf s) (['\x7d'])) = true
    · rw [if_pos hg] at hj
      have hboth := hg
      rw [Bool.and_eq_true] at hboth
      unfold jsonParseChars at hj
      cases hv : jsonVal ((lastLineOf s).length + 2) (lastLineOf s) with
      | none => rw [hv] at hj; simp at hj
      | some p =>
        obtain ⟨j0, r0⟩ := p
        rw [hv] at hj
        by_cases hr : skipJsonWs r0 = []
        · have hj0 : j0 = j := by
            simp [hr] at hj
            exact hj
          subst hj0
          exact jsonVal_brace_obj _ _ j0 r0 hboth.1 hv
        · simp [hr] at hj
    · rw [if_neg hg] at hj
      exact absurd hj (by simp)
  · intro hg
    rw [extractDecisionSummary_eq]
    simp [hg]

/-- C4 witness: a string with no JSON yields null, and a parsed result on a
payload-carrying string is an object. -/
theorem extract_total_welltyped_witness :
    extractDecisionSummary ("hello") = none
    ∧ isObjB (Json.obj [("a", Json.bool true)]) = true :=
  ⟨(extract_total_welltyped_deterministic ("hello")).2.2 (by decide),
   (extract_total_welltyped_deterministic ("x\n\x7b\x22a\x22: true\x7d")).2.1
     (Json.obj [("a", Json.bool true)]) (by rfl)⟩

/-- A reply carrying its payload only inside a fenced json code block. -/
def fencedReply : String := "\x60\x60\x60json\n\x7b\x22ok\x22: true\x7d\n\x60\x60\x60"

/-- A reply whose only JSON is a balanced-brace span inside a longer line. -/
def braceyReply : String := "前文 \x7b\x22ok\x22: true\x7d 後文"

/-- C5 counterexample: the decision extractor wired into the pipeline
(extractDecisionSummary) deserializes nothing on a fenced-payload input —
the fence is handled only by the separate parseJsonFromGeminiText variant —
and neither function deserializes a balanced-brace span embedded mid-text,
so the claimed three-tier fence / last-line / brace-scan strategy does not
describe either extractor. -/
theorem extraction_strategy_counterexample :
    extractDecisionSummary fencedReply = none
    ∧ Variant5.parseJsonFromGeminiText fencedReply =
        ⟨some (Json.obj [("ok", Json.bool true)]), fencedReply⟩
    ∧ extractDecisionSummary braceyReply = none
    ∧ Variant5.parseJsonFromGeminiText braceyReply = ⟨none, braceyReply⟩ :=
  ⟨rfl, rfl, rfl, rfl⟩

/-- C5 amended: extractDecisionSummary deserializes exactly the trimmed last
line of the trimmed reply, and only when it is brace-delimited, with no
fence preference and no brace-span fallback; parseJsonFromGeminiText (the
part_005 variant) prefers the first closed fenced json block and otherwise
parses the whole trimmed text.  In each function the named payload is the
one deserialized. -/
theorem extraction_strategy_amended :
    (∀ s : String, extractDecisionSummary s =
      (if listStartsWith (lastLineOf s) (['\x7b']) && listEndsWith (lastLineOf s) (['\x7d'])
       then jsonParseChars (lastLineOf s) else none))
    ∧ (∀ (t : String) (inner : List Char), t ≠ "" → Variant5.findFence t.data = some inner →
        Variant5.parseJsonFromGeminiText t = ⟨jsonParseChars (jsTrimChars inner), t⟩)
    ∧ (∀ t : String, t ≠ "" → Variant5.findFence t.data = none →
        Variant5.parseJsonFromGeminiText t = ⟨jsonParseChars (jsTrimChars t.data), t⟩) := by
  refine ⟨extractDecisionSummary_eq, ?_, ?_⟩
  · intro t inner ht hf
    have ht2 : (t == "") = false := by
      simp [ht]
    simp [Variant5.parseJsonFromGeminiText, ht2, hf]
  · intro t ht hf
    have ht2 : (t == "") = false := by
      simp [ht]
    simp [Variant5.parseJsonFromGeminiText, ht2, hf]

/-- C5 witness: the amended fence-preference clause applied to a concrete
fenced reply (with an upper-case fence tag, which the case-insensitive match
accepts). -/
theorem extraction_strategy_amended_witness :
    Variant5.parseJsonFromGeminiText ("\x60\x60\x60JSON\n\x7b\x22ok\x22: true\x7d\n\x60\x60\x60")
      = ⟨some (Json.obj [("ok", Json.bool true)]),
          "\x60\x60\x60JSON\n\x7b\x22ok\x22: true\x7d\n\x60\x60\x60"⟩ := by
  have h := extraction_strategy_amended.2.1
    ("\x60\x60\x60JSON\n\x7b\x22ok\x22: true\x7d\n\x60\x60\x60")
    (("\n\x7b\x22ok\x22: true\x7d\n").data) (by decide) (by rfl)
  rw [h]
  rfl

/-- C6 counterexample: a reply with no JSON fails closed but with reason
"parse error", not "unparseable"; and a parseable reply with an
out-of-vocabulary regime fails closed with an empty reason, so the claimed
reason value is wrong in both fail-closed paths. -/
theorem classify_fails_closed_counterexample :
    classifyRegime ("hello") = ⟨"unknown", false, Json.str ("parse error")⟩
    ∧ Json.str ("parse error") ≠ Json.str ("unparseable")
    ∧ classifyRegime ("\x7b\x22regime\x22:\x22foo\x22\x7d") =
        ⟨"unknown", false, Json.str ("")⟩ := by
  refine ⟨rfl, ?_, rfl⟩
  intro h
  injection h with h2
  exact absurd h2 (by decide)

theorem regimeOf_mem_vocab (parsed : Json) :
    regimeOf parsed = "range" ∨ regimeOf parsed = "trend" ∨ regimeOf parsed = "unknown" := by
  cases hj : jGet parsed ("regime") with
  | none => right; right; simp [regimeOf, hj]
  | some v =>
    cases v with
    | str s =>
      by_cases hs : (s == "range" || s == "trend" || s == "unknown") = true
      · by_cases hv : jsTruthy (Json.str s) = true
        · have he : regimeOf parsed = s := by simp [regimeOf, hj, hv, hs]
          rw [he]
          have hs2 := hs
          simp only [Bool.or_eq_true, beq_iff_eq] at hs2
          tauto
        · right; right; simp [regimeOf, hj, hv]
      · right; right
        simp [regimeOf, hj, hs]
    | null => right; right; simp [regimeOf, hj]
    | bool b => right; right; simp [regimeOf, hj]
    | num q => right; right; simp [regimeOf, hj]
    | arr l => right; right; simp [regimeOf, hj]
    | obj m => right; right; simp [regimeOf, hj]

/-- Whether the reply's regime field is present as a string of the closed
vocabulary; when this is false the field is missing, not a string, or out
of vocabulary, and classifyRegime normalizes it to "unknown". -/
def hasVocabRegime (parsed : Json) : Bool :=
  match jGet parsed ("regime") with
  | some (Json.str s) => s == "range" || s == "trend" || s == "unknown"
  | _ => false

theorem regimeOf_unknown_of_invalid (parsed : Json) (h : hasVocabRegime parsed = false) :
    regimeOf parsed = "unknown" := by
  cases hj : jGet parsed ("regime") with
  | none => simp [regimeOf, hj]
  | some v =>
    cases v with
    | str s =>
      have hs : (s == "range" || s == "trend" || s == "unknown") = false := by
        have h2 := h
        simp only [hasVocabRegime, hj] at h2
        exact h2
      simp [regimeOf, hj, hs]
    | null => simp [regimeOf, hj]
    | bool b => simp [regimeOf, hj]
    | num q => simp [regimeOf, hj]
    | arr l => simp [regimeOf, hj]
    | obj m => simp [regimeOf, hj]

/-- C6 amended: on any reply from which no JSON can be recovered (no brace
pair, or an unparsable slice) classifyRegime returns the fail-closed record
with reason "parse error"; on every parsed reply whose regime field is
missing, not a string, or outside the closed vocabulary, it returns regime
unknown with strategyAllowed false and the reply's own reason field (or the
empty string when that is falsy or missing); the regime always lies in the
closed vocabulary; and the strategy is reported permitted only when the
regime is exactly "range" — never when the classification is uncertain. -/
theorem classify_fails_closed_amended :
    (∀ raw : String, replyJson raw = none →
      classifyRegime raw = ⟨"unknown", false, Json.str ("parse error")⟩)
    ∧ (∀ (raw : String) (parsed : Json), replyJson raw = some parsed →
        hasVocabRegime parsed = false →
        classifyRegime raw =
          ⟨"unknown", false, jsOr (jGet parsed ("reason")) (Json.str (""))⟩)
    ∧ (∀ raw : String, (classifyRegime raw).strategyAllowed = true →
        (classifyRegime raw).regime = "range")
    ∧ (∀ raw : String, (classifyRegime raw).regime = "range"
        ∨ (classifyRegime raw).regime = "trend"
        ∨ (classifyRegime raw).regime = "unknown") := by
  refine ⟨?_, ?_, ?_, ?_⟩
  · intro raw h
    simp [classifyRegime, h]
  · intro raw parsed hj hreg
    have hc : classifyRegime raw =
        ⟨regimeOf parsed,
          regimeOf parsed == "range" && !(isBoolFalse (jGet parsed ("strategyAllowed"))),
          jsOr (jGet parsed ("reason")) (Json.str (""))⟩ := by
      simp [classifyRegime, hj]
    rw [hc, regimeOf_unknown_of_invalid parsed hreg]
    simp
  · intro raw h
    cases hj : replyJson raw with
    | none =>
      have hc : classifyRegime raw = ⟨"unknown", false, Json.str ("parse error")⟩ := by
        simp [classifyRegime, hj]
      rw [hc] at h
      simp at h
    | some parsed =>
      have hc : classifyRegime raw =
          ⟨regimeOf parsed,
            regimeOf parsed == "range" && !(isBoolFalse (jGet parsed ("strategyAllowed"))),
            jsOr (jGet parsed ("reason")) (Json.str (""))⟩ := by
        simp [classifyRegime, hj]
      simp only [hc] at h ⊢
      simp only [Bool.and_eq_true, beq_iff_eq] at h
      exact h.1
  · intro raw
    cases hj : replyJson raw with
    | none => right; right; simp [classifyRegime, hj]
    | some parsed =>
      have hc : classifyRegime raw =
          ⟨regimeOf parsed,
            regimeOf parsed == "range" && !(isBoolFalse (jGet parsed ("strategyAllowed"))),
            jsOr (jGet parsed ("reason")) (Json.str (""))⟩ := by
        simp [classifyRegime, hj]
      simp only [hc]
      exact regimeOf_mem_vocab parsed

/-- C6 witness: the amended parse-failure clause at a concrete unparsable
reply, and the invalid-regime clause at a concrete reply whose regime is out
of vocabulary and whose reason is carried through. -/
theorem classify_fails_closed_witness :
    classifyRegime ("zzz") = ⟨"unknown", false, Json.str ("parse error")⟩
    ∧ classifyRegime ("\x7b\x22regime\x22:\x22foo\x22,\x22reason\x22:\x22r1\x22\x7d")
        = ⟨"unknown", false, Json.str ("r1")⟩ := by
  refine ⟨classify_fails_closed_amended.1 ("zzz") rfl, ?_⟩
  have h := classify_fails_closed_amended.2.1
    ("\x7b\x22regime\x22:\x22foo\x22,\x22reason\x22:\x22r1\x22\x7d")
    (Json.obj [("regime", Json.str ("foo")), ("reason", Json.str ("r1"))])
    (by rfl) (by rfl)
  rw [h]
  rfl

/-! ### Statistics purity and the numeric scenario (C7, C8) -/

theorem computeStats_total (l : List Trade) :
    (computeStats l).total = (finishedOf l).length := rfl

theorem computeStats_wins (l : List Trade) :
    (computeStats l).wins = ((finishedOf l).filter (fun t => t.result == "win")).length := rfl

theorem computeStats_losses (l : List Trade) :
    (computeStats l).losses = ((finishedOf l).filter (fun t => t.result == "loss")).length := rfl

theorem computeStats_totalR (l : List Trade) :
    (computeStats l).totalR = (finishedOf l).foldl signedStep 0 := rfl

theorem computeStats_winRate (l : List Trade) :
    (computeStats l).winRate =
      (if (finishedOf l).length = 0 then 0
       else jsRound ((((finishedOf l).filter (fun t => t.result == "win")).length : Rat)
          / (((finishedOf l).length : Nat) : Rat) * 100)) := rfl

/-- A pending 1R record awaiting its outcome. -/
def pendingDemo : Trade :=
  ⟨5, "2024-01-01T02:00:00.000Z", Json.str (""), Json.str ("long"), Json.null, Json.null,
    Json.null, Json.null, some 1, Json.str (""), "pending", none⟩

/-- One closed win and one still-pending record. -/
def demoPendingLedger : List Trade := [winDemo, pendingDemo]

/-- The same ledger after the close operation resolves the pending record as
a win. -/
def demoClosedLedger : List Trade :=
  closeTradeAt demoPendingLedger 1 ("win") ("2024-01-01T03:00:00.000Z")

/-- The record shape produced by closing a record as a win: only result and
closedAt change. -/
def closeWinRecord (t : Trade) (now : String) : Trade :=
  ⟨t.id, t.time, t.symbol, t.direction, t.entry, t.stop, t.tp1, t.tp15, t.risk_r, t.note,
    "win", some now⟩

/-- C7 counterexample: closing the pending record of [1R win, pending] as a
win moves the exact win fraction from 1/1 to 2/2 — a change of zero, not of
one part in the new terminal count (1/2) — and the reported winRate stays at
100 as well, so the rate does not move by exactly 1/newTotal. -/
theorem stats_one_part_counterexample :
    (computeStats demoPendingLedger).total = 1
    ∧ (computeStats demoClosedLedger).total = 2
    ∧ (computeStats demoPendingLedger).winRate = 100
    ∧ (computeStats demoClosedLedger).winRate = 100
    ∧ ((computeStats demoClosedLedger).wins : Rat) / ((computeStats demoClosedLedger).total : Rat)
        - ((computeStats demoPendingLedger).wins : Rat)
          / ((computeStats demoPendingLedger).total : Rat) = 0
    ∧ (0 : Rat) ≠ 1 / ((computeStats demoClosedLedger).total : Rat) := by
  have hfp : finishedOf demoPendingLedger = [winDemo] := rfl
  have hfc : finishedOf demoClosedLedger
      = [winDemo, closeWinRecord pendingDemo ("2024-01-01T03:00:00.000Z")] := rfl
  refine ⟨by decide, by decide, ?_, ?_, ?_, ?_⟩
  · rw [computeStats_winRate, hfp]
    have hw1 : (([winDemo] : List Trade).filter (fun t => t.result == "win")).length = 1 := by
      decide
    rw [hw1]
    norm_num [jsRound, Int.floor_eq_iff]
  · rw [computeStats_winRate, hfc]
    have hw2 : (([winDemo, closeWinRecord pendingDemo ("2024-01-01T03:00:00.000Z")] :
        List Trade).filter (fun t => t.result == "win")).length = 2 := by decide
    rw [hw2]
    norm_num [jsRound, Int.floor_eq_iff]
  · rw [show (computeStats demoClosedLedger).wins = 2 from by decide,
      show (computeStats demoClosedLedger).total = 2 from by decide,
      show (computeStats demoPendingLedger).wins = 1 from by decide,
      show (computeStats demoPendingLedger).total = 1 from by decide]
    norm_num
  · rw [show (computeStats demoClosedLedger).total = 2 from by decide]
    norm_num

/-- C7 amended: computeStats is a pure function of the terminal records —
appending a non-terminal record changes nothing — and closing a record as a
win deterministically increments the win count and the terminal count by
one each, leaves the loss count, adds the record's risk magnitude to the
cumulative R, resets the backward loss streak, and makes the reported
winRate the rounded percentage of (wins + 1)/(total + 1); the rate therefore
moves by (total - wins)/(total(total + 1)) in exact terms, not by
1/(total + 1) in general. -/
theorem stats_purity_amended :
    (∀ (trades : List Trade) (p : Trade), isFinishedB p = false →
      computeStats (trades ++ [p]) = computeStats trades)
    ∧ (∀ (trades : List Trade) (p : Trade) (now : String),
        (computeStats (trades ++ [closeWinRecord p now])).total
            = (computeStats trades).total + 1
        ∧ (computeStats (trades ++ [closeWinRecord p now])).wins
            = (computeStats trades).wins + 1
        ∧ (computeStats (trades ++ [closeWinRecord p now])).losses
            = (computeStats trades).losses
        ∧ (computeStats (trades ++ [closeWinRecord p now])).winRate
            = jsRound ((((computeStats trades).wins : Rat) + 1)
                / (((computeStats trades).total : Rat) + 1) * 100)
        ∧ (computeStats (trades ++ [closeWinRecord p now])).totalR
            = (computeStats trades).totalR + rUnitOf p
        ∧ (computeStats (trades ++ [closeWinRecord p now])).consecutiveLoss = 0) := by
  constructor
  · intro trades p hp
    have hf : finishedOf (trades ++ [p]) = finishedOf trades := by
      simp [finishedOf, List.filter_append, List.filter_cons, hp]
    rw [computeStats_unfold, computeStats_unfold, hf]
  · intro trades p now
    have hwin : (closeWinRecord p now).result = "win" := rfl
    have hcw : isFinishedB (closeWinRecord p now) = true := rfl
    have hf : finishedOf (trades ++ [closeWinRecord p now])
        = finishedOf trades ++ [closeWinRecord p now] := by
      simp [finishedOf, List.filter_append, List.filter_cons, hcw]
    refine ⟨?_, ?_, ?_, ?_, ?_, ?_⟩
    · rw [computeStats_total, computeStats_total, hf]
      simp
    · rw [computeStats_wins, computeStats_wins, hf]
      simp [List.filter_append, List.filter_cons, hwin]
    · rw [computeStats_losses, computeStats_losses, hf]
      simp [List.filter_append, List.filter_cons, hwin]
    · rw [computeStats_winRate, computeStats_wins, computeStats_total, hf]
      have hlen : (finishedOf trades ++ [closeWinRecord p now]).length
          = (finishedOf trades).length + 1 := by simp
      have hwins : ((finishedOf trades ++ [closeWinRecord p now]).filter
          (fun t => t.result == "win")).length
          = ((finishedOf trades).filter (fun t => t.result == "win")).length + 1 := by
        simp [List.filter_append, List.filter_cons, hwin]
      rw [hlen, hwins, if_neg (Nat.succ_ne_zero _)]
      have harg : ((((finishedOf trades).filter (fun t => t.result == "win")).length + 1 : Nat) : Rat)
          / (((finishedOf trades).length + 1 : Nat) : Rat)
          = ((((finishedOf trades).filter (fun t => t.result == "win")).length : Rat) + 1)
            / (((finishedOf trades).length : Rat) + 1) := by
        push_cast
        ring
      rw [show ((((finishedOf trades).filter (fun t => t.result == "win")).length + 1 : Nat) : Rat)
          / (((finishedOf trades).length + 1 : Nat) : Rat) * 100
          = ((((finishedOf trades).filter (fun t => t.result == "win")).length : Rat) + 1)
            / (((finishedOf trades).length : Rat) + 1) * 100 from by rw [harg]]
    · rw [computeStats_totalR, computeStats_totalR, hf, List.foldl_append]
      simp [signedStep, hwin, rUnitOf, closeWinRecord]
    · rw [computeStats_consecutiveLoss, hf]
      exact consecLossOf_win_tail _ _ hwin

/-- C7 witness: the purity clause applied to a concrete append of a pending
record. -/
theorem stats_purity_witness :
    computeStats ([winDemo] ++ [pendingDemo]) = computeStats [winDemo] :=
  stats_purity_amended.1 [winDemo] pendingDemo rfl

/-- A part_005 record for a 1R win (rMultiple stores the signed outcome). -/
def w5 : Variant5.TradeRec :=
  ⟨"1", "2024-01-01T00:00:00.000Z", "image", "range", some true, "long",
    none, none, none, none, some 1, "win", "unknown", "unknown", "unknown", ""⟩

/-- A part_005 record for a 1R loss: result "lose", rMultiple -1. -/
def l5 : Variant5.TradeRec :=
  ⟨"2", "2024-01-01T01:00:00.000Z", "image", "range", some true, "short",
    none, none, none, none, some (-1), "lose", "unknown", "unknown", "unknown", ""⟩

/-- The scenario ledger [1R win, 1R loss, 1R win] in the part_005 record
shape. -/
def demoFive : List Variant5.TradeRec := [w5, l5, w5]

/-- The same scenario ledger in the index.js record shape. -/
def demoThree : List Trade := [winDemo, lossDemo, winDemo]

theorem demoFive_fold :
    demoFive.foldl Variant5.stepStats ⟨0, 0, 0, 0, 0, 0, 0, 0, [], 0, 0, 0, 0⟩
      = ⟨2, 1, 1, 1, 1, 1, 1, 0, [(1, 1), (2, 0), (3, 1)], 3, 0, 0, 3⟩ := by
  simp [demoFive, Variant5.stepStats, Variant5.rOf, Variant5.marketOf, w5, l5]

theorem variantStats_demoFive :
    Variant5.computeStats demoFive =
      ⟨3, 2, 1, 200 / 3, 1 / 3, 1, 1, 1, 200 / 3, [(1, 1), (2, 0), (3, 1)], (3, 0, 0)⟩ := by
  have hw : w5.result = "win" := rfl
  have hl : l5.result = "lose" := rfl
  have hne : demoFive.isEmpty = false := rfl
  simp only [Variant5.computeStats, hne, Bool.false_eq_true, if_false, demoFive_fold]
  simp [demoFive, hw, hl]
  norm_num

theorem demoThree_winRate : (computeStats demoThree).winRate = 67 := by
  rw [computeStats_winRate]
  have hf : finishedOf demoThree = demoThree := rfl
  rw [hf]
  have hw : ((demoThree.filter (fun t => t.result == "win")).length) = 2 := by decide
  have hl : demoThree.length = 3 := rfl
  rw [hw, hl]
  norm_num [jsRound, Int.floor_eq_iff]

/-- C8 counterexample: on the scenario ledger the part_005 computeStats
returns winRate 200/3 = 66.666..., not 66.67, and the index.js variant
returns the rounded integer 67, not 66.67; the claimed equality fails in
both variants. -/
theorem stats_scenario_counterexample :
    (Variant5.computeStats demoFive).winRate = 200 / 3
    ∧ (200 / 3 : Rat) ≠ 6667 / 100
    ∧ (computeStats demoThree).winRate = 67
    ∧ ((67 : Int) : Rat) ≠ 6667 / 100 := by
  refine ⟨by rw [variantStats_demoFive], by norm_num, demoThree_winRate, by norm_num⟩

/-- C8 amended: on the scenario ledger the part_005 computeStats returns the
exact winRate 200/3 (which renders as 66.67 at two decimals), the cumulative
equity curve [1, 0, 1] (indexed 1..3) and maxDrawdown 1; the index.js
variant reports the integer-rounded winRate 67. -/
theorem stats_scenario_amended :
    (Variant5.computeStats demoFive).winRate = 200 / 3
    ∧ toFixed2 (200 / 3) = "66.67"
    ∧ (Variant5.computeStats demoFive).equityCurve = [(1, 1), (2, 0), (3, 1)]
    ∧ (Variant5.computeStats demoFive).maxDrawdown = 1
    ∧ (computeStats demoThree).winRate = 67 := by
  refine ⟨by rw [variantStats_demoFive], ?_, by rw [variantStats_demoFive],
    by rw [variantStats_demoFive], demoThree_winRate⟩
  have hn : (⌊(200 / 3 : Rat) * 100 + 1 / 2⌋ : Int) = 6667 := by
    norm_num [Int.floor_eq_iff]
  simp only [toFixed2, hn]
  rfl
